import Mathlib

set_option maxRecDepth 10000

/-!
Verification of the command-dispatch / polling core of
`src/interfazpinkaversijala.py` (Pico W car control UI).

The embedding covers:
* the tolerant distance-response parser `_parse_distance_response`
  (with models of Python `json.loads` and `float()` on the relevant
  fragment of their input languages);
* the bounded distance history (`collections.deque(maxlen=...)` plus
  `append_dist`);
* the direct PWM send path `_send_pwm`;
* the UI callbacks wired into the `CommandSender` instance and the
  health-check routine `verificar_conexion` (their effect on the global
  `estado` dictionary and the status label);
* the `CommandSender` class itself, as a small-step state machine whose
  atomic steps are the lock-protected critical sections of the source,
  driven by explicit action schedules so that thread interleavings are
  represented as lists of actions.
-/

/-! ### Configuration constants (src lines 32-54) -/

def RATE_LIMIT_MS : Int := 160

def MAX_FAILS : Nat := 4

def DIST_HISTORY_LEN : Nat := 120

def ACCENT2 : String := "#9b59b6"

/-! ### Python string helpers

Models of the Python `str` methods used by `_parse_distance_response`
(`strip`, `lower`, `replace(",", ".")`), working on `List Char`. -/

def isPySpace (c : Char) : Bool :=
  c = ' ' ∨ c = '\t' ∨ c = '\n' ∨ c = '\r' ∨ c = '\x0b' ∨ c = '\x0c'

def pyStripLeft : List Char → List Char
  | [] => []
  | c :: cs => if isPySpace c then pyStripLeft cs else c :: cs

/-- Python `str.strip()` (whitespace from both ends). -/
def pyStrip (l : List Char) : List Char :=
  ((pyStripLeft ((pyStripLeft l).reverse)).reverse)

def pyLowerChar (c : Char) : Char :=
  if 'A' ≤ c ∧ c ≤ 'Z' then Char.ofNat (c.toNat + 32) else c

/-- Python `str.lower()` (ASCII fragment). -/
def pyLower (l : List Char) : List Char :=
  l.map pyLowerChar

/-- Python `txt.replace(",", ".")`: both pattern and replacement are single
characters, so it is a character map. -/
def replaceCommaDot (l : List Char) : List Char :=
  l.map (fun c => if c = ',' then '.' else c)

/-! ### JSON values and a model of `json.loads`

`requests.Response.json()` delegates to `json.loads` on the body text.
Modeled fragment of the JSON grammar: `null`, `true`, `false`, numbers,
strings without escape sequences, and flat objects whose values are such
scalars.  Bodies outside this fragment are reported as a parse failure
(`none`), which the caller treats like the `json.loads` exception path;
for such bodies the object branch of `_parse_distance_response` is not
exercised by any claim. -/

inductive JVal where
  | jnull : JVal
  | jbool : Bool → JVal
  | jnum : Rat → JVal
  | jstr : List Char → JVal
  | jobj : List (List Char × JVal) → JVal
deriving Repr

def jSkipWs : List Char → List Char
  | [] => []
  | c :: cs => if c = ' ' ∨ c = '\t' ∨ c = '\n' ∨ c = '\r' then jSkipWs cs else c :: cs

def isDigitCh (c : Char) : Bool := '0' ≤ c ∧ c ≤ '9'

/-- Consume a maximal run of decimal digits, accumulating their value and
count.  Returns `(value, digitCount, rest)`. -/
def readDigits : List Char → Nat → Nat → Nat × Nat × List Char
  | [], acc, n => (acc, n, [])
  | c :: cs, acc, n =>
    if isDigitCh c then readDigits cs (acc * 10 + (c.toNat - '0'.toNat)) (n + 1)
    else (acc, n, c :: cs)

/-- The rational `sign * (intPart.fracDigits) * 10^exponent`, i.e. the exact
value of a decimal literal with integer part `ip`, fractional digits of value
`fv` and count `fn`, and exponent `ev`. -/
def ratOfParts (neg : Bool) (ip fv fn : Nat) (ev : Int) : Rat :=
  let mant : Int := Int.ofNat (ip * 10 ^ fn + fv)
  let mant : Int := if neg then -mant else mant
  let e : Int := ev - Int.ofNat fn
  if 0 ≤ e then ((mant * (10 : Int) ^ e.toNat : Int) : Rat)
  else mkRat mant (10 ^ (-e).toNat)

/-- JSON integer part: a single `0`, or a nonzero digit followed by digits
(JSON forbids leading zeros). -/
def jReadInt : List Char → Option (Nat × List Char)
  | '0' :: cs => some (0, cs)
  | c :: cs =>
    if isDigitCh c then
      let r := readDigits cs (c.toNat - '0'.toNat) 1
      some (r.1, r.2.2)
    else none
  | [] => none

/-- JSON number: `-? int frac? exp?`. -/
def jParseNum (l : List Char) : Option (Rat × List Char) :=
  let p : Bool × List Char := match l with
    | '-' :: cs => (true, cs)
    | _ => (false, l)
  let neg := p.1
  match jReadInt p.2 with
  | none => none
  | some (ip, l2) =>
    let q : Nat × Nat × List Char × Bool := match l2 with
      | '.' :: cs =>
        let r := readDigits cs 0 0
        (r.1, r.2.1, r.2.2, true)
      | _ => (0, 0, l2, false)
    let fv := q.1
    let fn := q.2.1
    let l3 := q.2.2.1
    let fracPresent := q.2.2.2
    if fracPresent ∧ fn = 0 then none
    else
      match l3 with
      | [] => some (ratOfParts neg ip fv fn 0, [])
      | c :: cs =>
        if c = 'e' ∨ c = 'E' then
          let s : Bool × List Char := match cs with
            | '+' :: t => (false, t)
            | '-' :: t => (true, t)
            | _ => (false, cs)
          let r := readDigits s.2 0 0
          if r.2.1 = 0 then none
          else some (ratOfParts neg ip fv fn (if s.1 then -(r.1 : Int) else (r.1 : Int)), r.2.2)
        else some (ratOfParts neg ip fv fn 0, c :: cs)

/-- Body of a JSON string after the opening quote; escape sequences are
outside the modeled fragment. -/
def jReadStrAux : List Char → List Char → Option (List Char × List Char)
  | [], _ => none
  | c :: cs, acc =>
    if c = '"' then some (acc.reverse, cs)
    else if c = '\\' then none
    else jReadStrAux cs (c :: acc)

/-- A scalar JSON value (everything except objects and arrays). -/
def jParseScalar (l : List Char) : Option (JVal × List Char) :=
  match l with
  | 'n' :: 'u' :: 'l' :: 'l' :: cs => some (.jnull, cs)
  | 't' :: 'r' :: 'u' :: 'e' :: cs => some (.jbool true, cs)
  | 'f' :: 'a' :: 'l' :: 's' :: 'e' :: cs => some (.jbool false, cs)
  | '"' :: cs => (jReadStrAux cs []).map (fun p => (.jstr p.1, p.2))
  | _ => (jParseNum l).map (fun p => (.jnum p.1, p.2))

/-- Fields of a JSON object after the opening brace (at least one field;
the empty object is handled by the caller). -/
def jParseFields : Nat → List Char → List (List Char × JVal) →
    Option (List (List Char × JVal) × List Char)
  | 0, _, _ => none
  | fuel + 1, l, acc =>
    match jSkipWs l with
    | '"' :: cs =>
      match jReadStrAux cs [] with
      | none => none
      | some (key, r1) =>
        match jSkipWs r1 with
        | ':' :: r2 =>
          match jParseScalar (jSkipWs r2) with
          | none => none
          | some (v, r3) =>
            match jSkipWs r3 with
            | ',' :: r4 => jParseFields fuel r4 (acc ++ [(key, v)])
            | '\x7d' :: r4 => some (acc ++ [(key, v)], r4)
            | _ => none
        | _ => none
    | _ => none

/-- Model of `json.loads` on the fragment described at `JVal`:
a whole body is a single scalar or flat object, with surrounding
whitespace, and nothing may follow it. -/
def json_loads (l : List Char) : Option JVal :=
  match jSkipWs l with
  | '\x7b' :: cs =>
    match jSkipWs cs with
    | '\x7d' :: r => if jSkipWs r = [] then some (.jobj []) else none
    | _ =>
      match jParseFields (cs.length + 1) cs [] with
      | some (fields, r) => if jSkipWs r = [] then some (.jobj fields) else none
      | none => none
  | l1 =>
    match jParseScalar l1 with
    | some (v, r) => if jSkipWs r = [] then some v else none
    | none => none

/-- Python `dict` lookup for the dictionary produced by `json.loads`
(later duplicate keys overwrite earlier ones). -/
def pyDictGet (fields : List (List Char × JVal)) (key : List Char) : Option JVal :=
  fields.foldl (fun acc kv => if kv.1 = key then some kv.2 else acc) none

/-- Model of Python `float(str)` on finite decimal literals:
optional surrounding whitespace, optional sign, `digits [. digits*]` or
`. digits`, optional exponent.  (`inf`/`nan` spellings and digit-group
underscores are outside the modeled fragment.)  `none` models the
`ValueError` path. -/
def pyFloatLit (l : List Char) : Option Rat :=
  let l1 := pyStrip l
  let p : Bool × List Char := match l1 with
    | '-' :: cs => (true, cs)
    | '+' :: cs => (false, cs)
    | _ => (false, l1)
  let neg := p.1
  let ri := readDigits p.2 0 0
  let iv := ri.1
  let ni := ri.2.1
  let l3 := ri.2.2
  let rf : Nat × Nat × List Char := match l3 with
    | '.' :: cs => readDigits cs 0 0
    | _ => (0, 0, l3)
  let fv := rf.1
  let fn := rf.2.1
  let l4 := rf.2.2
  if ni = 0 ∧ fn = 0 then none
  else
    match l4 with
    | [] => some (ratOfParts neg iv fv fn 0)
    | c :: cs =>
      if c = 'e' ∨ c = 'E' then
        let s : Bool × List Char := match cs with
          | '+' :: t => (false, t)
          | '-' :: t => (true, t)
          | _ => (false, cs)
        let re := readDigits s.2 0 0
        if re.2.1 = 0 ∨ re.2.2 ≠ [] then none
        else some (ratOfParts neg iv fv fn (if s.1 then -(re.1 : Int) else (re.1 : Int)))
      else none

/-- Model of Python `float(x)` applied to a decoded JSON value `j["cm"]`:
numbers are returned, booleans coerce to 0/1, strings re-parse as float
literals, everything else raises `TypeError` (modeled as `none`). -/
def pyFloatOfJVal : JVal → Option Rat
  | .jnum q => some q
  | .jbool b => some (if b then 1 else 0)
  | .jstr s => pyFloatLit s
  | _ => none

def cmKey : List Char := ['c', 'm']

def nullChars : List Char := ['n', 'u', 'l', 'l']

/-- The `except` branch of `_parse_distance_response` (src lines 358-365):
`txt = r.text.strip()`; if `txt` is nonempty and not `"null"`
(case-insensitively), normalize the decimal separator and try `float`. -/
def parse_distance_fallback (body : List Char) : Option Rat :=
  let txt := pyStrip body
  if txt ≠ [] ∧ pyLower txt ≠ nullChars then pyFloatLit (replaceCommaDot txt)
  else none

/-- `_parse_distance_response` (src lines 353-366) on a response with the
given body text.  The `try` block asks `r.json()` for a dict with a `"cm"`
key and applies `float` to it; any exception in that block (JSON decode
failure, or `float(j["cm"])` failing) enters the `except` branch
`parse_distance_fallback`; a decoded body that is not a dict with `"cm"`
falls through to the final `return None` without raising. -/
def parse_distance_response (body : String) : Option Rat :=
  match json_loads body.data with
  | some (JVal.jobj fields) =>
    match pyDictGet fields cmKey with
    | some v =>
      match pyFloatOfJVal v with
      | some q => some q
      | none => parse_distance_fallback body.data
    | none => none
  | some _ => none
  | none => parse_distance_fallback body.data

/-! ### Bounded distance history

`dist_history = collections.deque(maxlen=DIST_HISTORY_LEN)` (src line 278)
and `append_dist` (src lines 408-415).  A `deque` with `maxlen` discards
elements from the opposite end when an append would exceed the capacity;
as a list kept in insertion order that is a drop from the front. -/

def dequePush (maxlen : Nat) (l : List α) (x : α) : List α :=
  let l' := l ++ [x]
  if maxlen < l'.length then l'.drop (l'.length - maxlen) else l'

/-- `append_dist(d)` appends `None` or `float(d)` to `dist_history`; a
sample is already an optional number, and `float` is the identity on it,
so the history gains exactly the pushed sample. -/
def append_dist (h : List (Option Rat)) (d : Option Rat) : List (Option Rat) :=
  dequePush DIST_HISTORY_LEN h d

/-- The history contents after pushing the samples `ds`, in order, into a
freshly created `dist_history`. -/
def dist_history_after (ds : List (Option Rat)) : List (Option Rat) :=
  ds.foldl append_dist []

/-! ### Claim C3 — the distance parser -/

/-- C3 counterexample: the claim says a bare numeric literal using either
`.` or `,` as decimal separator yields the corresponding number, but a
body using `.` is valid JSON, so `r.json()` succeeds with a non-dict
value and `_parse_distance_response` falls through to `return None`
without ever reaching the bare-literal fallback; only the `,` spelling
(invalid JSON) reaches the fallback and yields the number. -/
theorem c3_counterexample :
    parse_distance_response "12.5" = none ∧
    parse_distance_response "12,5" = some (mkRat 25 2) :=
  ⟨rfl, rfl⟩

/-- C3 amended: a structured JSON object body with a numeric `"cm"` field
yields that value; a body that is not valid JSON yields exactly what the
fallback gives — in particular a bare `,`-separated numeric literal yields
the number, while any body whose normalized text is not a float literal
yields absent; a body that is valid JSON but a bare number (`.` separator)
yields absent, as do the literal `"null"` and malformed text; the parser
is a total function (every exception path of the source is mapped into
`none` rather than escaping). -/
theorem c3_parser_behavior :
    (∀ (s : String) (fields : List (List Char × JVal)) (q : Rat),
        json_loads s.data = some (JVal.jobj fields) →
        pyDictGet fields cmKey = some (JVal.jnum q) →
        parse_distance_response s = some q) ∧
    (∀ (s : String) (q : Rat),
        json_loads s.data = none →
        parse_distance_fallback s.data = some q →
        parse_distance_response s = some q) ∧
    (∀ (s : String) (q : Rat),
        json_loads s.data = some (JVal.jnum q) →
        parse_distance_response s = none) ∧
    (parse_distance_response "null" = none) ∧
    (parse_distance_response "abc" = none) ∧
    (∀ s : String,
        json_loads s.data = none →
        parse_distance_fallback s.data = none →
        parse_distance_response s = none) := by
  refine ⟨?_, ?_, ?_, rfl, rfl, ?_⟩
  · intro s fields q h1 h2
    simp [parse_distance_response, h1, h2, pyFloatOfJVal]
  · intro s q h1 h2
    simp [parse_distance_response, h1, h2]
  · intro s q h
    simp [parse_distance_response, h]
  · intro s h1 h2
    simp [parse_distance_response, h1, h2]

/-- C3 witness: the amended parser behavior evaluated at the concrete
bodies of the spec's scenario (plus a structured body and a `.` literal). -/
theorem c3_parser_behavior_witness :
    parse_distance_response "\x7b\"cm\": 12.5\x7d" = some (mkRat 25 2) ∧
    parse_distance_response "12,5" = some (mkRat 25 2) ∧
    parse_distance_response "1.5" = none :=
  ⟨c3_parser_behavior.1 "\x7b\"cm\": 12.5\x7d" [(cmKey, JVal.jnum (mkRat 25 2))] (mkRat 25 2)
      rfl rfl,
   c3_parser_behavior.2.1 "12,5" (mkRat 25 2) rfl rfl,
   c3_parser_behavior.2.2.1 "1.5" (mkRat 3 2) rfl⟩

/-! ### Claim C9 — the bounded history -/

theorem dequePush_eq_drop (n : Nat) (l : List α) (x : α) :
    dequePush n l x = (l ++ [x]).drop ((l ++ [x]).length - n) := by
  show (if n < (l ++ [x]).length then (l ++ [x]).drop ((l ++ [x]).length - n) else l ++ [x]) =
    (l ++ [x]).drop ((l ++ [x]).length - n)
  by_cases h : n < (l ++ [x]).length
  · rw [if_pos h]
  · rw [if_neg h, Nat.sub_eq_zero_of_le (Nat.le_of_not_lt h), List.drop_zero]

theorem dist_history_after_eq_drop (ds : List (Option Rat)) :
    dist_history_after ds = ds.drop (ds.length - DIST_HISTORY_LEN) := by
  induction ds using List.reverseRecOn with
  | nil => rfl
  | append_singleton ds d ih =>
    have step : dist_history_after (ds ++ [d]) = append_dist (dist_history_after ds) d := by
      unfold dist_history_after
      rw [List.foldl_append]
      rfl
    rw [step, ih, append_dist, dequePush_eq_drop]
    by_cases h : ds.length ≤ DIST_HISTORY_LEN
    · rw [Nat.sub_eq_zero_of_le h, List.drop_zero]
    · push_neg at h
      have hD : DIST_HISTORY_LEN = 120 := rfl
      have hlen : (ds.drop (ds.length - DIST_HISTORY_LEN)).length = DIST_HISTORY_LEN := by
        rw [List.length_drop]
        omega
      have h1 : (ds.drop (ds.length - DIST_HISTORY_LEN) ++ [d]).length - DIST_HISTORY_LEN = 1 := by
        simp only [List.length_append, hlen, List.length_cons, List.length_nil]
        omega
      have h2 : (ds ++ [d]).length - DIST_HISTORY_LEN = ds.length + 1 - DIST_HISTORY_LEN := by
        simp only [List.length_append, List.length_cons, List.length_nil]
      rw [h1, h2,
        List.drop_append_of_le_length
          (by rw [hlen]; decide : 1 ≤ (ds.drop (ds.length - DIST_HISTORY_LEN)).length),
        List.drop_drop,
        List.drop_append_of_le_length (by omega : ds.length + 1 - DIST_HISTORY_LEN ≤ ds.length)]
      have h3 : ds.length - DIST_HISTORY_LEN + 1 = ds.length + 1 - DIST_HISTORY_LEN := by
        omega
      rw [h3]

/-- C9: pushing any sequence of samples into the bounded history never
exceeds the capacity `DIST_HISTORY_LEN = 120`; after pushing `N + K`
samples, exactly the `K` oldest have been evicted and the remaining `N`
appear in insertion order (the history is the length-`N` suffix of the
pushed sequence); the last element is the most recently pushed sample. -/
theorem c9_bounded_history :
    (∀ ds : List (Option Rat), (dist_history_after ds).length ≤ DIST_HISTORY_LEN) ∧
    (∀ (ds : List (Option Rat)) (K : Nat), ds.length = DIST_HISTORY_LEN + K →
        dist_history_after ds = ds.drop K) ∧
    (∀ ds : List (Option Rat), ds ≠ [] →
        (dist_history_after ds).getLast? = ds.getLast?) := by
  refine ⟨?_, ?_, ?_⟩
  · intro ds
    rw [dist_history_after_eq_drop, List.length_drop]
    omega
  · intro ds K h
    rw [dist_history_after_eq_drop, h]
    congr 1
    omega
  · intro ds h
    rw [dist_history_after_eq_drop]
    have hD : DIST_HISTORY_LEN = 120 := rfl
    have hk : ds.length - DIST_HISTORY_LEN < ds.length := by
      have : ds.length ≠ 0 := fun h0 => h (List.eq_nil_of_length_eq_zero h0)
      omega
    have hne : ds.drop (ds.length - DIST_HISTORY_LEN) ≠ [] := by
      apply List.ne_nil_of_length_pos
      rw [List.length_drop]
      omega
    conv_rhs => rw [← List.take_append_drop (ds.length - DIST_HISTORY_LEN) ds]
    rw [List.getLast?_append_of_ne_nil _ hne]

/-- C9 witness: the bounded-history theorem applied to a concrete run of
125 pushes (capacity 120, so the 5 oldest are evicted). -/
theorem c9_bounded_history_witness :
    dist_history_after (List.replicate 125 (some 1)) =
      (List.replicate 125 (some (1 : Rat))).drop 5 ∧
    (dist_history_after (List.replicate 125 (some 1))).getLast? = some (some (1 : Rat)) := by
  constructor
  · exact c9_bounded_history.2.1 (List.replicate 125 (some 1)) 5 rfl
  · rw [c9_bounded_history.2.2 (List.replicate 125 (some 1)) (by decide)]
    decide

/-! ### Claim C10 — the direct PWM send path -/

/-- Result of one `_send_pwm(pwm)` call: the duty value carried by the
`/velocidad?v=` GET if one was issued, and the resulting values of the
module globals `_last_vel_ts` / `_last_vel_val`. -/
structure PwmResult where
  sent : Option Int
  last_vel_ts : Int
  last_vel_val : Int
deriving DecidableEq, Repr

/-- `_send_pwm` (src lines 324-346).  `conectado` is `estado["conectado"]`,
`ip` the text of the IP entry, `ok` whether the GET returns status 200,
`now` the value of `time.time()*1000` at the call.  The function returns
early (no GET, globals untouched) when disconnected, when the clamped
value is within 6 of the last acknowledged value and fewer than 250 ms
have passed since it was acknowledged, or when the stripped IP is empty;
a non-200 status or request exception leaves the globals untouched. -/
def send_pwm (conectado : Bool) (ip : String) (ok : Bool) (now : Int)
    (last_vel_ts last_vel_val : Int) (pwm : Int) : PwmResult :=
  if ¬conectado then ⟨none, last_vel_ts, last_vel_val⟩
  else
    let pwm' := max 0 (min 255 pwm)
    if |pwm' - last_vel_val| < 6 ∧ now - last_vel_ts < 250 then
      ⟨none, last_vel_ts, last_vel_val⟩
    else if pyStrip ip.data = [] then ⟨none, last_vel_ts, last_vel_val⟩
    else if ok then ⟨some pwm', now, pwm'⟩
    else ⟨some pwm', last_vel_ts, last_vel_val⟩

/-! ### Claim C7 — the UI callbacks and the connectivity flag -/

/-- The global dict `estado` (src line 57). -/
structure Estado where
  conectado : Bool
deriving DecidableEq, Repr

/-- The pieces of application state touched by the callbacks wired into
`sender` (src lines 285-290) and by the health check: the global
`estado`, the status label, the IP info label, and the list of modal
error alerts shown so far. -/
structure AppSt where
  estado : Estado
  statusText : String
  statusColor : String
  ipinfoText : String
  alerts : List String
deriving DecidableEq, Repr

/-- The `on_soft_error` callback wired into `sender` (src line 287):
it only re-labels the status. -/
def on_soft_error_app (m : String) (s : AppSt) : AppSt :=
  { s with statusText := m, statusColor := ACCENT2 }

/-- The `on_hard_disconnect` callback wired into `sender` (src line 288):
it re-labels the status and shows a modal error box.  It does not assign
`estado["conectado"]`. -/
def on_hard_disconnect_app (m : String) (s : AppSt) : AppSt :=
  { s with statusText := "Desconectado", statusColor := "#ff6b81",
           alerts := s.alerts ++ [m] }

/-- The body of `verificar_conexion`'s worker `do()` (src lines 307-317),
with `ok = http_alive(ip)` its health-check outcome.  This is the only
code in the module that assigns `estado["conectado"]`. -/
def verificar_do (ip : String) (ok : Bool) (s : AppSt) : AppSt :=
  if ok then
    { s with estado := ⟨true⟩, statusText := "Conectado " ++ ip,
             statusColor := "#22c55e", ipinfoText := "→ " ++ ip }
  else
    { s with estado := ⟨false⟩, statusText := "No responde",
             statusColor := "#ff6b81", ipinfoText := "" }

/-! ### The CommandSender state machine (src lines 62-147)

All mutable `CommandSender` state is guarded by `self.lock`; the machine's
atomic steps are exactly the lock-protected critical sections (plus the
unguarded library calls between them).  Worker threads spawned by `_pump`
are explicit, with a program counter (`Phase`) recording which section
they execute next, so a list of actions is one interleaving of the caller
thread, the timer callbacks, and the `_send` workers. -/

structure SenderSt where
  pending : Option String
  inflight : Bool
  last_ts : Int
  fail_count : Nat
  shutdown : Bool
deriving DecidableEq, Repr

/-- `CommandSender.__init__` (src lines 65-75). -/
def initSenderSt : SenderSt := ⟨none, false, 0, 0, false⟩

/-- Program counter of a spawned `_send` worker: the next critical
section / library call it will execute. -/
inductive Phase where
  | entry : Phase
  | resolveIp : String → Phase
  | awaitNet : String → Phase
  | failInc : Phase
  | failReport : Nat → Phase
  | fin : Phase
deriving DecidableEq, Repr

/-- Observable events: the two callbacks, the start and completion of a
Transport GET (with the command token it carries), and timer arming via
`after_fn(ms, _pump)`. -/
inductive Ev where
  | softError : Nat → Ev
  | hardDisconnect : Ev
  | sendStart : String → Ev
  | sendDone : Bool → Ev
  | schedPump : Int → Ev
deriving DecidableEq, Repr

structure Config where
  st : SenderSt
  now : Int
  threads : List Phase
  events : List Ev
  calls : Nat
  maxCalls : Nat
deriving DecidableEq, Repr

/-- Fresh `CommandSender` (the model's clock starts at 0, matching the
initial `last_ts = 0.0`; concrete runs first advance the clock, as the
real `time.time()*1000` is far past the epoch). -/
def initConfig : Config := ⟨initSenderSt, 0, [], [], 0, 0⟩

/-- `_pump` (src lines 82-93, 127): the lock-protected check plus either
the early return, the `after_fn(wait_ms, _pump)` re-arm, or the spawn of
a `_send` worker.  Nothing between the lock release and the spawn touches
shared state, so this is one atomic step. -/
def pumpStep (c : Config) : Config :=
  if c.st.inflight ∨ c.st.pending = none ∨ c.st.shutdown then c
  else
    let wait := max 0 (RATE_LIMIT_MS - (c.now - c.st.last_ts))
    if 0 < wait then { c with events := c.events ++ [.schedPump wait] }
    else { c with threads := c.threads ++ [.entry] }

/-- One micro-step of the `_send` worker at index `i` (src lines 95-125),
including the `_register_fail` it may call (src lines 129-142).
`entry`: the take-pending critical section — on `pending is None or
shutdown` it clears `inflight` and dies.  `resolveIp`: evaluates
`get_ip().strip()`; an empty address raises into the `except` path
(`failInc`) without issuing a GET; otherwise the GET starts.  `awaitNet`:
the GET completes with status-200 flag `ok`; on success `fail_count`
resets and `last_ts` is stamped, on failure `_register_fail` runs next.
`failInc`: the lock-protected `fail_count += 1`.  `failReport`: below
`MAX_FAILS` report a soft error and arm the backoff timer
`min(2000, fc*200)`, else report the hard disconnect (and arm nothing).
`fin`: the `finally` block clearing `inflight`, plus `after_fn(0, _pump)`.
`ip` and `ok` are the environment's choices, ignored by phases not
consuming them. -/
def stepPhase (c : Config) (i : Nat) (ip : String) (ok : Bool) : Config :=
  match c.threads.get? i with
  | none => c
  | some ph =>
    match ph with
    | .entry =>
      match c.st.pending, c.st.shutdown with
      | some cmd, false =>
        { c with st := { c.st with pending := none, inflight := true },
                 threads := c.threads.set i (.resolveIp cmd) }
      | _, _ =>
        { c with st := { c.st with inflight := false },
                 threads := c.threads.eraseIdx i }
    | .resolveIp cmd =>
      if pyStrip ip.data = [] then { c with threads := c.threads.set i .failInc }
      else
        { c with events := c.events ++ [.sendStart cmd],
                 calls := c.calls + 1,
                 maxCalls := max c.maxCalls (c.calls + 1),
                 threads := c.threads.set i (.awaitNet cmd) }
    | .awaitNet _ =>
      if ok then
        { c with st := { c.st with fail_count := 0, last_ts := c.now },
                 calls := c.calls - 1,
                 events := c.events ++ [.sendDone true],
                 threads := c.threads.set i .fin }
      else
        { c with calls := c.calls - 1,
                 events := c.events ++ [.sendDone false],
                 threads := c.threads.set i .failInc }
    | .failInc =>
      { c with st := { c.st with fail_count := c.st.fail_count + 1 },
               threads := c.threads.set i (.failReport (c.st.fail_count + 1)) }
    | .failReport fc =>
      if fc < MAX_FAILS then
        { c with events := c.events ++ [.softError fc, .schedPump (min 2000 ((fc : Int) * 200))],
                 threads := c.threads.set i .fin }
      else
        { c with events := c.events ++ [.hardDisconnect],
                 threads := c.threads.set i .fin }
    | .fin =>
      { c with st := { c.st with inflight := false },
               events := c.events ++ [.schedPump 0],
               threads := c.threads.eraseIdx i }

/-- Scheduler actions: the two halves of `queue` (src lines 77-80) — the
lock-protected `pending = cmd` write and the synchronous `_pump()` call —
a `_pump` invocation (from `queue` or a fired timer), a worker micro-step,
a clock advance, and `shutdown_sender` (src lines 144-147). -/
inductive Act where
  | setPending : String → Act
  | pump : Act
  | stepT : Nat → String → Bool → Act
  | tick : Nat → Act
  | shutdownCall : Act
deriving DecidableEq, Repr

def applyAct (c : Config) : Act → Config
  | .setPending cmd => { c with st := { c.st with pending := some cmd } }
  | .pump => pumpStep c
  | .stepT i ip ok => stepPhase c i ip ok
  | .tick d => { c with now := c.now + (d : Int) }
  | .shutdownCall => { c with st := { c.st with shutdown := true, pending := none } }

def run (c : Config) (as : List Act) : Config := as.foldl applyAct c

/-- `queue cmd` (src lines 77-80) in program order: the pending overwrite
followed by the synchronous pump. -/
def queueActs (cmd : String) : List Act := [.setPending cmd, .pump]

def isSendStart : Ev → Bool
  | .sendStart _ => true
  | _ => false

/-- Number of Transport GETs issued in an event log. -/
def sendStarts (evs : List Ev) : Nat := (evs.filter isSendStart).length

/-- Number of hard-disconnect callbacks in an event log. -/
def hardCount (evs : List Ev) : Nat := evs.count Ev.hardDisconnect

/-! ### Basic facts about the machine -/

theorem run_nil (c : Config) : run c [] = c := rfl

theorem run_cons (c : Config) (a : Act) (as : List Act) :
    run c (a :: as) = run (applyAct c a) as := rfl

theorem run_append (c : Config) (as bs : List Act) :
    run c (as ++ bs) = run (run c as) bs := by
  unfold run
  exact List.foldl_append applyAct c as bs

theorem sendStarts_append (evs evs' : List Ev) :
    sendStarts (evs ++ evs') = sendStarts evs + sendStarts evs' := by
  unfold sendStarts
  rw [List.filter_append, List.length_append]

/-! Per-branch equations of `pumpStep` and `stepPhase`. -/

theorem pumpStep_noop (c : Config)
    (h : c.st.inflight = true ∨ c.st.pending = none ∨ c.st.shutdown = true) :
    pumpStep c = c := by
  simp only [pumpStep, if_pos h]

theorem pumpStep_wait (c : Config) (cmd : String)
    (h1 : c.st.inflight = false) (h2 : c.st.pending = some cmd) (h3 : c.st.shutdown = false)
    (hw : 0 < max 0 (RATE_LIMIT_MS - (c.now - c.st.last_ts))) :
    pumpStep c =
      { c with events :=
          c.events ++ [Ev.schedPump (max 0 (RATE_LIMIT_MS - (c.now - c.st.last_ts)))] } := by
  have hg : ¬(c.st.inflight = true ∨ c.st.pending = none ∨ c.st.shutdown = true) := by
    rw [h1, h2, h3]
    simp
  simp only [pumpStep, if_neg hg, if_pos hw]

theorem pumpStep_spawn (c : Config) (cmd : String)
    (h1 : c.st.inflight = false) (h2 : c.st.pending = some cmd) (h3 : c.st.shutdown = false)
    (hw : max 0 (RATE_LIMIT_MS - (c.now - c.st.last_ts)) = 0) :
    pumpStep c = { c with threads := c.threads ++ [Phase.entry] } := by
  have hg : ¬(c.st.inflight = true ∨ c.st.pending = none ∨ c.st.shutdown = true) := by
    rw [h1, h2, h3]
    simp
  have hw' : ¬(0 < max 0 (RATE_LIMIT_MS - (c.now - c.st.last_ts))) := by
    rw [hw]
    exact lt_irrefl 0
  simp only [pumpStep, if_neg hg, if_neg hw']

theorem stepPhase_oob (c : Config) (i : Nat) (ip : String) (ok : Bool)
    (hg : c.threads.get? i = none) : stepPhase c i ip ok = c := by
  simp only [stepPhase, hg]

theorem stepPhase_entry_take (c : Config) (i : Nat) (ip : String) (ok : Bool) (cmd : String)
    (hg : c.threads.get? i = some Phase.entry)
    (hp : c.st.pending = some cmd) (hs : c.st.shutdown = false) :
    stepPhase c i ip ok =
      { c with st := { c.st with pending := none, inflight := true },
               threads := c.threads.set i (Phase.resolveIp cmd) } := by
  simp only [stepPhase, hg, hp, hs]

theorem stepPhase_entry_skip_pending (c : Config) (i : Nat) (ip : String) (ok : Bool)
    (hg : c.threads.get? i = some Phase.entry) (hp : c.st.pending = none) :
    stepPhase c i ip ok =
      { c with st := { c.st with inflight := false },
               threads := c.threads.eraseIdx i } := by
  simp only [stepPhase, hg, hp]

theorem stepPhase_entry_skip_shutdown (c : Config) (i : Nat) (ip : String) (ok : Bool)
    (hg : c.threads.get? i = some Phase.entry) (hs : c.st.shutdown = true) :
    stepPhase c i ip ok =
      { c with st := { c.st with inflight := false },
               threads := c.threads.eraseIdx i } := by
  cases hp : c.st.pending with
  | none => exact stepPhase_entry_skip_pending c i ip ok hg hp
  | some cmd => simp only [stepPhase, hg, hp, hs]

theorem stepPhase_resolve_emptyIp (c : Config) (i : Nat) (ip : String) (ok : Bool) (cmd : String)
    (hg : c.threads.get? i = some (Phase.resolveIp cmd)) (hip : pyStrip ip.data = []) :
    stepPhase c i ip ok = { c with threads := c.threads.set i Phase.failInc } := by
  simp only [stepPhase, hg, if_pos hip]

theorem stepPhase_resolve_send (c : Config) (i : Nat) (ip : String) (ok : Bool) (cmd : String)
    (hg : c.threads.get? i = some (Phase.resolveIp cmd)) (hip : ¬pyStrip ip.data = []) :
    stepPhase c i ip ok =
      { c with events := c.events ++ [Ev.sendStart cmd],
               calls := c.calls + 1,
               maxCalls := max c.maxCalls (c.calls + 1),
               threads := c.threads.set i (Phase.awaitNet cmd) } := by
  simp only [stepPhase, hg, if_neg hip]

theorem stepPhase_await_ok (c : Config) (i : Nat) (ip : String) (cmd : String)
    (hg : c.threads.get? i = some (Phase.awaitNet cmd)) :
    stepPhase c i ip true =
      { c with st := { c.st with fail_count := 0, last_ts := c.now },
               calls := c.calls - 1,
               events := c.events ++ [Ev.sendDone true],
               threads := c.threads.set i Phase.fin } := by
  simp only [stepPhase, hg]
  rfl

theorem stepPhase_await_fail (c : Config) (i : Nat) (ip : String) (cmd : String)
    (hg : c.threads.get? i = some (Phase.awaitNet cmd)) :
    stepPhase c i ip false =
      { c with calls := c.calls - 1,
               events := c.events ++ [Ev.sendDone false],
               threads := c.threads.set i Phase.failInc } := by
  simp only [stepPhase, hg]
  rfl

theorem stepPhase_failInc (c : Config) (i : Nat) (ip : String) (ok : Bool)
    (hg : c.threads.get? i = some Phase.failInc) :
    stepPhase c i ip ok =
      { c with st := { c.st with fail_count := c.st.fail_count + 1 },
               threads := c.threads.set i (Phase.failReport (c.st.fail_count + 1)) } := by
  simp only [stepPhase, hg]

theorem stepPhase_failReport_soft (c : Config) (i : Nat) (ip : String) (ok : Bool) (fc : Nat)
    (hg : c.threads.get? i = some (Phase.failReport fc)) (hfc : fc < MAX_FAILS) :
    stepPhase c i ip ok =
      { c with events :=
          c.events ++ [Ev.softError fc, Ev.schedPump (min 2000 ((fc : Int) * 200))],
               threads := c.threads.set i Phase.fin } := by
  simp only [stepPhase, hg, if_pos hfc]

theorem stepPhase_failReport_hard (c : Config) (i : Nat) (ip : String) (ok : Bool) (fc : Nat)
    (hg : c.threads.get? i = some (Phase.failReport fc)) (hfc : ¬fc < MAX_FAILS) :
    stepPhase c i ip ok =
      { c with events := c.events ++ [Ev.hardDisconnect],
               threads := c.threads.set i Phase.fin } := by
  simp only [stepPhase, hg, if_neg hfc]

theorem stepPhase_fin (c : Config) (i : Nat) (ip : String) (ok : Bool)
    (hg : c.threads.get? i = some Phase.fin) :
    stepPhase c i ip ok =
      { c with st := { c.st with inflight := false },
               events := c.events ++ [Ev.schedPump 0],
               threads := c.threads.eraseIdx i } := by
  simp only [stepPhase, hg]

/-! ### Claim C5 — shutdown -/

/-- A worker not in phase `resolveIp` cannot issue a GET on its next step:
it either still has to run the take-pending section (which observes
`shutdown`) or is already past the GET.  Only a worker caught exactly
between the take-pending section and `requests.get` can still initiate a
Transport call without re-checking `shutdown`. -/
def noResolvePhase : Phase → Bool
  | .resolveIp _ => false
  | _ => true

/-- Shutdown has been requested and no worker is about to issue a GET. -/
def quietShutdown (c : Config) : Prop :=
  c.st.shutdown = true ∧ ∀ ph ∈ c.threads, noResolvePhase ph = true

theorem quietShutdown_step (c : Config) (a : Act) (h : quietShutdown c) :
    quietShutdown (applyAct c a) ∧
    sendStarts (applyAct c a).events = sendStarts c.events := by
  obtain ⟨hsd, hth⟩ := h
  cases a with
  | setPending cmd => exact ⟨⟨hsd, hth⟩, rfl⟩
  | pump =>
    show quietShutdown (pumpStep c) ∧ sendStarts (pumpStep c).events = sendStarts c.events
    rw [pumpStep_noop c (Or.inr (Or.inr hsd))]
    exact ⟨⟨hsd, hth⟩, rfl⟩
  | tick d => exact ⟨⟨hsd, hth⟩, rfl⟩
  | shutdownCall => exact ⟨⟨rfl, hth⟩, rfl⟩
  | stepT i ip ok =>
    show quietShutdown (stepPhase c i ip ok) ∧
      sendStarts (stepPhase c i ip ok).events = sendStarts c.events
    have herase : ∀ ph' ∈ c.threads.eraseIdx i, noResolvePhase ph' = true :=
      fun ph' hm => hth ph' ((List.eraseIdx_sublist c.threads i).subset hm)
    have hset : ∀ ph₀, noResolvePhase ph₀ = true →
        ∀ ph' ∈ c.threads.set i ph₀, noResolvePhase ph' = true := by
      intro ph₀ h₀ ph' hm
      rcases List.mem_or_eq_of_mem_set hm with hm' | rfl
      · exact hth ph' hm'
      · exact h₀
    cases hg : c.threads.get? i with
    | none =>
      rw [stepPhase_oob c i ip ok hg]
      exact ⟨⟨hsd, hth⟩, rfl⟩
    | some ph =>
      have hok := hth ph (List.get?_mem hg)
      cases ph with
      | entry =>
        rw [stepPhase_entry_skip_shutdown c i ip ok hg hsd]
        exact ⟨⟨hsd, herase⟩, rfl⟩
      | resolveIp cmd => simp [noResolvePhase] at hok
      | awaitNet cmd =>
        cases ok with
        | true =>
          rw [stepPhase_await_ok c i ip cmd hg]
          refine ⟨⟨hsd, hset _ rfl⟩, ?_⟩
          rw [sendStarts_append]
          rfl
        | false =>
          rw [stepPhase_await_fail c i ip cmd hg]
          refine ⟨⟨hsd, hset _ rfl⟩, ?_⟩
          rw [sendStarts_append]
          rfl
      | failInc =>
        rw [stepPhase_failInc c i ip ok hg]
        exact ⟨⟨hsd, hset _ rfl⟩, rfl⟩
      | failReport fc =>
        by_cases hc : fc < MAX_FAILS
        · rw [stepPhase_failReport_soft c i ip ok fc hg hc]
          refine ⟨⟨hsd, hset _ rfl⟩, ?_⟩
          rw [sendStarts_append]
          rfl
        · rw [stepPhase_failReport_hard c i ip ok fc hg hc]
          refine ⟨⟨hsd, hset _ rfl⟩, ?_⟩
          rw [sendStarts_append]
          rfl
      | fin =>
        rw [stepPhase_fin c i ip ok hg]
        refine ⟨⟨hsd, herase⟩, ?_⟩
        rw [sendStarts_append]
        rfl

theorem quietShutdown_run (c : Config) (tr : List Act) (h : quietShutdown c) :
    quietShutdown (run c tr) ∧ sendStarts (run c tr).events = sendStarts c.events := by
  induction tr generalizing c with
  | nil => exact ⟨h, rfl⟩
  | cons a as ih =>
    obtain ⟨h1, h2⟩ := quietShutdown_step c a h
    obtain ⟨h3, h4⟩ := ih (applyAct c a) h1
    rw [run_cons]
    exact ⟨h3, h4.trans h2⟩

theorem shutdown_not_written (c : Config) (a : Act) (h : c.st.shutdown = true) :
    (applyAct c a).st.shutdown = true := by
  cases a with
  | setPending cmd => exact h
  | tick d => exact h
  | shutdownCall => rfl
  | pump =>
    show (pumpStep c).st.shutdown = true
    rw [pumpStep_noop c (Or.inr (Or.inr h))]
    exact h
  | stepT i ip ok =>
    show (stepPhase c i ip ok).st.shutdown = true
    cases hg : c.threads.get? i with
    | none => rw [stepPhase_oob c i ip ok hg]; exact h
    | some ph =>
      cases ph with
      | entry => rw [stepPhase_entry_skip_shutdown c i ip ok hg h]; exact h
      | resolveIp cmd =>
        by_cases hip : pyStrip ip.data = []
        · rw [stepPhase_resolve_emptyIp c i ip ok cmd hg hip]; exact h
        · rw [stepPhase_resolve_send c i ip ok cmd hg hip]; exact h
      | awaitNet cmd =>
        cases ok with
        | true => rw [stepPhase_await_ok c i ip cmd hg]; exact h
        | false => rw [stepPhase_await_fail c i ip cmd hg]; exact h
      | failInc => rw [stepPhase_failInc c i ip ok hg]; exact h
      | failReport fc =>
        by_cases hc : fc < MAX_FAILS
        · rw [stepPhase_failReport_soft c i ip ok fc hg hc]; exact h
        · rw [stepPhase_failReport_hard c i ip ok fc hg hc]; exact h
      | fin => rw [stepPhase_fin c i ip ok hg]; exact h

/-- C5: once `shutdown_sender` has run (and no worker sits between its
take-pending section and its GET), no schedule of further actions —
later `queue` calls included — ever issues another Transport GET, and
the shutdown flag stays set; `shutdown_sender` is idempotent; and no
action of the machine ever clears the shutdown flag. -/
theorem c5_shutdown_terminal :
    (∀ (c : Config) (tr : List Act),
        c.st.shutdown = true →
        (∀ ph ∈ c.threads, noResolvePhase ph = true) →
        sendStarts (run c tr).events = sendStarts c.events ∧
        (run c tr).st.shutdown = true) ∧
    (∀ c : Config,
        applyAct (applyAct c Act.shutdownCall) Act.shutdownCall = applyAct c Act.shutdownCall) ∧
    (∀ (c : Config) (a : Act), c.st.shutdown = true → (applyAct c a).st.shutdown = true) := by
  refine ⟨?_, ?_, shutdown_not_written⟩
  · intro c tr h1 h2
    obtain ⟨h3, h4⟩ := quietShutdown_run c tr ⟨h1, h2⟩
    exact ⟨h4, h3.1⟩
  · intro c
    rfl

/-- The configuration right after `shutdown_sender()` returns on a fresh
sender (`queue` was never called, so no worker threads exist). -/
def shutdownCfg : Config := applyAct initConfig Act.shutdownCall

/-- C5 witness: on the shut-down sender, a later `queue("detener")` —
pending write, pump, and a worker step — issues no GET and leaves the
flag set, and a second `shutdown_sender()` is a no-op. -/
theorem c5_shutdown_terminal_witness :
    (sendStarts (run shutdownCfg
        [Act.setPending "detener", Act.pump, Act.stepT 0 "192.168.0.101" true]).events =
      sendStarts shutdownCfg.events ∧
      (run shutdownCfg
        [Act.setPending "detener", Act.pump, Act.stepT 0 "192.168.0.101" true]).st.shutdown =
        true) ∧
    applyAct (applyAct shutdownCfg Act.shutdownCall) Act.shutdownCall =
      applyAct shutdownCfg Act.shutdownCall :=
  ⟨c5_shutdown_terminal.1 shutdownCfg
      [Act.setPending "detener", Act.pump, Act.stepT 0 "192.168.0.101" true]
      rfl (by intro ph hm; cases hm),
   c5_shutdown_terminal.2.1 shutdownCfg⟩

/-! ### Concrete runs -/

/-- The endpoint address used by concrete runs (nonempty after strip). -/
def picoIp : String := "192.168.0.101"

/-- One complete failing send attempt driven by a fresh `queue cmd`:
pending write, pump (which spawns the worker at index 0), then the six
worker steps — take-pending, GET start, GET failure, counter increment,
report, `finally`. -/
def failCycle (cmd : String) : List Act :=
  [Act.setPending cmd, Act.pump] ++ List.replicate 6 (Act.stepT 0 picoIp false)

/-- Three consecutive failing sends on a fresh sender (the clock first
advances past the initial rate-limit window). -/
def threeFailTrace : List Act :=
  [Act.tick 1000] ++ failCycle "a" ++ failCycle "b" ++ failCycle "c"

/-- Five consecutive failing sends on a fresh sender: the fourth reaches
`MAX_FAILS`, the fifth is triggered by one more `queue` call. -/
def fiveFailTrace : List Act :=
  threeFailTrace ++ failCycle "d" ++ failCycle "e"

/-- A failing send attempt whose `get_ip()` yields the empty string. -/
def emptyIpTrace : List Act :=
  [Act.tick 1000, Act.setPending "adelante", Act.pump] ++
    List.replicate 6 (Act.stepT 0 "" false)

/-! ### Claim C1 — hard disconnect -/

/-- With no pending command and no worker threads, any schedule that
contains no `queue` (`setPending`) action leaves the sender inert: no
events are emitted at all, and the quiescence is preserved. -/
theorem inert_run (c : Config) (tr : List Act)
    (hp : c.st.pending = none) (ht : c.threads = [])
    (hq : ∀ cmd, Act.setPending cmd ∉ tr) :
    (run c tr).events = c.events ∧ (run c tr).st.pending = none ∧
    (run c tr).threads = [] := by
  induction tr generalizing c with
  | nil => exact ⟨rfl, hp, ht⟩
  | cons a as ih =>
    have hq' : ∀ cmd, Act.setPending cmd ∉ as :=
      fun cmd hm => hq cmd (List.mem_cons_of_mem _ hm)
    rw [run_cons]
    cases a with
    | setPending cmd => exact absurd (List.mem_cons_self _ _) (hq cmd)
    | pump =>
      have : applyAct c Act.pump = c := pumpStep_noop c (Or.inr (Or.inl hp))
      rw [this]
      exact ih c hp ht hq'
    | stepT i ip ok =>
      have hg : c.threads.get? i = none := by
        rw [ht]
        rfl
      have : applyAct c (Act.stepT i ip ok) = c := stepPhase_oob c i ip ok hg
      rw [this]
      exact ih c hp ht hq'
    | tick d => exact ih _ hp ht hq'
    | shutdownCall => exact ih _ rfl ht hq'

/-- C1 amended: when `fail_count` reaches `MAX_FAILS` the report step
fires exactly one hard-disconnect callback and arms no retry timer, and
the sender state is untouched, so — second conjunct — as long as no
further `queue` call arrives, no further send is ever attempted (no event
at all is emitted).  However, nothing latches the hard-disconnect: the
same report step fires the callback again for every later consecutive
failure (`fail_count` = 5, 6, … after sends triggered by later `queue`
calls), which is the part of the original claim that fails. -/
theorem c1_hard_disconnect_behavior :
    (∀ (c : Config) (i : Nat) (ip : String) (ok : Bool) (fc : Nat),
        c.threads.get? i = some (Phase.failReport fc) → MAX_FAILS ≤ fc →
        (stepPhase c i ip ok).events = c.events ++ [Ev.hardDisconnect] ∧
        (stepPhase c i ip ok).st = c.st) ∧
    (∀ (c : Config) (tr : List Act),
        c.st.pending = none → c.threads = [] → (∀ cmd, Act.setPending cmd ∉ tr) →
        (run c tr).events = c.events) := by
  constructor
  · intro c i ip ok fc hg hfc
    rw [stepPhase_failReport_hard c i ip ok fc hg (by omega)]
    exact ⟨rfl, rfl⟩
  · intro c tr hp ht hq
    exact (inert_run c tr hp ht hq).1

/-- C1 witness: the amended behavior at the threshold (`fail_count = 4`
on a sender that just failed its fourth send) and on an inert schedule of
pump/tick/worker actions with no `queue`. -/
theorem c1_hard_disconnect_behavior_witness :
    (stepPhase
        { st := { pending := none, inflight := true, last_ts := 0, fail_count := 4,
                  shutdown := false },
          now := 1000, threads := [Phase.failReport 4], events := [], calls := 0, maxCalls := 1 }
        0 picoIp false).events = [] ++ [Ev.hardDisconnect] ∧
    (run
        { st := { pending := none, inflight := false, last_ts := 0, fail_count := 4,
                  shutdown := false },
          now := 1000, threads := [], events := [Ev.hardDisconnect], calls := 0, maxCalls := 1 }
        [Act.pump, Act.tick 5000, Act.pump, Act.stepT 0 picoIp true]).events =
      [Ev.hardDisconnect] :=
  ⟨(c1_hard_disconnect_behavior.1
      { st := { pending := none, inflight := true, last_ts := 0, fail_count := 4,
                shutdown := false },
        now := 1000, threads := [Phase.failReport 4], events := [], calls := 0, maxCalls := 1 }
      0 picoIp false 4 rfl (by decide)).1,
   c1_hard_disconnect_behavior.2
      { st := { pending := none, inflight := false, last_ts := 0, fail_count := 4,
                shutdown := false },
        now := 1000, threads := [], events := [Ev.hardDisconnect], calls := 0, maxCalls := 1 }
      [Act.pump, Act.tick 5000, Act.pump, Act.stepT 0 picoIp true]
      rfl rfl (by intro cmd hm; simp [List.mem_cons] at hm)⟩

/-- C1 counterexample: five consecutive failing sends, the last triggered
by a `queue` call made after the hard disconnect had already fired.  The
hard-disconnect callback fires twice (not once), and a fifth Transport
GET (`sendStart "e"`) is attempted after the threshold crossing — the
full event log makes both visible. -/
theorem c1_counterexample :
    hardCount (run initConfig fiveFailTrace).events = 2 ∧
    sendStarts (run initConfig fiveFailTrace).events = 5 ∧
    (run initConfig fiveFailTrace).events =
      [Ev.sendStart "a", Ev.sendDone false, Ev.softError 1, Ev.schedPump 200, Ev.schedPump 0,
       Ev.sendStart "b", Ev.sendDone false, Ev.softError 2, Ev.schedPump 400, Ev.schedPump 0,
       Ev.sendStart "c", Ev.sendDone false, Ev.softError 3, Ev.schedPump 600, Ev.schedPump 0,
       Ev.sendStart "d", Ev.sendDone false, Ev.hardDisconnect, Ev.schedPump 0,
       Ev.sendStart "e", Ev.sendDone false, Ev.hardDisconnect, Ev.schedPump 0] :=
  ⟨rfl, rfl, rfl⟩

/-! ### Claim C6 — soft errors and linear capped backoff -/

/-- C6: every failure that leaves `fail_count = n < MAX_FAILS` reports a
soft error carrying `n` and arms a pump retry after `min(2000, n*200)`
milliseconds, touching no other state; on a fresh sender three
consecutive failures produce soft errors with counts 1, 2, 3 (of
`MAX_FAILS = 4`) and backoff delays 200 ms, 400 ms, 600 ms. -/
theorem c6_soft_error_backoff :
    (∀ (c : Config) (i fc : Nat) (ip : String) (ok : Bool),
        c.threads.get? i = some (Phase.failReport fc) → fc < MAX_FAILS →
        (stepPhase c i ip ok).events =
          c.events ++ [Ev.softError fc, Ev.schedPump (min 2000 ((fc : Int) * 200))] ∧
        (stepPhase c i ip ok).st = c.st) ∧
    (run initConfig threeFailTrace).events =
      [Ev.sendStart "a", Ev.sendDone false, Ev.softError 1, Ev.schedPump 200, Ev.schedPump 0,
       Ev.sendStart "b", Ev.sendDone false, Ev.softError 2, Ev.schedPump 400, Ev.schedPump 0,
       Ev.sendStart "c", Ev.sendDone false, Ev.softError 3, Ev.schedPump 600, Ev.schedPump 0] ∧
    MAX_FAILS = 4 := by
  refine ⟨?_, rfl, rfl⟩
  intro c i fc ip ok hg hfc
  rw [stepPhase_failReport_soft c i ip ok fc hg hfc]
  exact ⟨rfl, rfl⟩

/-- C6 witness: the report step after a second consecutive failure: soft
error `2/4`, backoff `min(2000, 400) = 400` ms. -/
theorem c6_soft_error_backoff_witness :
    (stepPhase
        { st := { pending := none, inflight := true, last_ts := 0, fail_count := 2,
                  shutdown := false },
          now := 1000, threads := [Phase.failReport 2], events := [], calls := 0, maxCalls := 1 }
        0 picoIp false).events = [] ++ [Ev.softError 2, Ev.schedPump (min 2000 ((2 : Int) * 200))] ∧
    min 2000 ((2 : Int) * 200) = 400 :=
  ⟨(c6_soft_error_backoff.1
      { st := { pending := none, inflight := true, last_ts := 0, fail_count := 2,
                shutdown := false },
        now := 1000, threads := [Phase.failReport 2], events := [], calls := 0, maxCalls := 1 }
      0 2 picoIp false rfl (by decide)).1,
   by decide⟩

/-! ### Claim C4 — empty endpoint address -/

/-- C4 amended: an empty (after strip) endpoint address makes the send
attempt skip the network call — no GET is issued — but the
`RuntimeError("IP vacía")` it raises is caught by the same generic
`except` as network failures, so `_register_fail` runs and the failure
counter increments by one (with the usual soft-error/backoff or
hard-disconnect report). -/
theorem c4_emptyIp_fails :
    ∀ (c : Config) (i : Nat) (cmd ip ip2 : String) (ok ok2 : Bool),
      c.threads.get? i = some (Phase.resolveIp cmd) → pyStrip ip.data = [] →
      sendStarts (stepPhase c i ip ok).events = sendStarts c.events ∧
      (stepPhase c i ip ok).st = c.st ∧
      (stepPhase (stepPhase c i ip ok) i ip2 ok2).st.fail_count = c.st.fail_count + 1 := by
  intro c i cmd ip ip2 ok ok2 hg hip
  obtain ⟨hlt, -⟩ := List.get?_eq_some.mp hg
  rw [stepPhase_resolve_emptyIp c i ip ok cmd hg hip]
  refine ⟨rfl, rfl, ?_⟩
  have hg2 : (c.threads.set i Phase.failInc).get? i = some Phase.failInc :=
    List.get?_set_eq_of_lt Phase.failInc hlt
  rw [stepPhase_failInc _ i ip2 ok2 hg2]

/-- C4 witness: the amended behavior on a worker that just took the
command, with the IP entry blank. -/
theorem c4_emptyIp_fails_witness :
    (stepPhase
        { st := { pending := none, inflight := true, last_ts := 0, fail_count := 0,
                  shutdown := false },
          now := 1000, threads := [Phase.resolveIp "adelante"], events := [], calls := 0,
          maxCalls := 0 }
        0 " " true).st = { pending := none, inflight := true, last_ts := 0, fail_count := 0,
                           shutdown := false } ∧
    (stepPhase (stepPhase
        { st := { pending := none, inflight := true, last_ts := 0, fail_count := 0,
                  shutdown := false },
          now := 1000, threads := [Phase.resolveIp "adelante"], events := [], calls := 0,
          maxCalls := 0 }
        0 " " true) 0 picoIp false).st.fail_count = 0 + 1 :=
  ⟨(c4_emptyIp_fails
      { st := { pending := none, inflight := true, last_ts := 0, fail_count := 0,
                shutdown := false },
        now := 1000, threads := [Phase.resolveIp "adelante"], events := [], calls := 0,
        maxCalls := 0 }
      0 "adelante" " " picoIp true false rfl rfl).2.1,
   (c4_emptyIp_fails
      { st := { pending := none, inflight := true, last_ts := 0, fail_count := 0,
                shutdown := false },
        now := 1000, threads := [Phase.resolveIp "adelante"], events := [], calls := 0,
        maxCalls := 0 }
      0 "adelante" " " picoIp true false rfl rfl).2.2⟩

/-- C4 counterexample: a complete send attempt on a fresh sender with a
blank IP entry.  No GET is issued, yet the failure counter ends at 1 (the
claim requires it to stay 0) and the soft-error/backoff path runs. -/
theorem c4_counterexample :
    sendStarts (run initConfig emptyIpTrace).events = 0 ∧
    (run initConfig emptyIpTrace).st.fail_count = 1 ∧
    (run initConfig emptyIpTrace).events =
      [Ev.softError 1, Ev.schedPump 200, Ev.schedPump 0] :=
  ⟨rfl, rfl, rfl⟩

/-! ### Claim C8 — at most one Transport call in flight -/

/-- The interleaving that breaks the single-inflight discipline.  Two
`queue`/`_pump` pairs run on the caller thread before either spawned
`_send` worker is scheduled (both pumps read `inflight == False`).  The
first worker takes the pending command and starts its GET; the second
worker then finds `pending` empty and executes the early-return branch
`self.inflight = False` — while the first GET is still in flight.  A
third `queue`/`_pump` therefore spawns a third worker, whose GET starts
while the first is still outstanding. -/
def raceOpening : List Act :=
  [Act.tick 1000, Act.setPending "a", Act.pump, Act.setPending "b", Act.pump,
   Act.stepT 0 picoIp true, Act.stepT 0 picoIp true, Act.stepT 1 picoIp true]

/-- `raceOpening` continued: the third `queue` and its worker's first two
steps (take pending, start GET), then both outstanding GETs complete. -/
def raceTrace : List Act :=
  raceOpening ++
    [Act.setPending "c", Act.pump, Act.stepT 1 picoIp true, Act.stepT 1 picoIp true,
     Act.stepT 0 picoIp true, Act.stepT 0 picoIp true, Act.stepT 0 picoIp true,
     Act.stepT 0 picoIp true]

/-- C8 (demonstration of the bug): after `raceOpening` the model is in a
state with one GET still in flight (`calls = 1`) but `inflight = false` —
the early-return branch of `_send` cleared the flag set by the other
worker.  Continuing with one more `queue` lets a second GET start before
the first completes: the maximum number of simultaneously outstanding
Transport calls over the run is 2, and the event log shows both
`sendStart`s before either `sendDone`.  The interleaving follows program
order: every action of a worker comes after its spawn, and the caller
thread's actions are in call order. -/
theorem c8_race_two_inflight :
    ((run initConfig raceOpening).calls = 1 ∧
      (run initConfig raceOpening).st.inflight = false) ∧
    (run initConfig raceTrace).maxCalls = 2 ∧
    (run initConfig raceTrace).events =
      [Ev.sendStart "b", Ev.sendStart "c", Ev.sendDone true, Ev.schedPump 0,
       Ev.sendDone true, Ev.schedPump 0] :=
  ⟨⟨rfl, rfl⟩, rfl, rfl⟩

/-! ### Claim C7 — hard disconnect and `estado["conectado"]` -/

/-- C7 counterexample: the Dispatcher escalates to hard-disconnect while
connected; the wired `on_hard_disconnect` callback relabels the status
and queues the modal alert but leaves `estado["conectado"]` at `true` —
the claim requires it to become `false`. -/
theorem c7_counterexample :
    (on_hard_disconnect_app "Múltiples fallos de envío."
        { estado := { conectado := true }, statusText := "Conectado 192.168.0.101",
          statusColor := "#22c55e", ipinfoText := "→ 192.168.0.101", alerts := [] }) =
      { estado := { conectado := true }, statusText := "Desconectado",
        statusColor := "#ff6b81", ipinfoText := "→ 192.168.0.101",
        alerts := ["Múltiples fallos de envío."] } :=
  rfl

/-- C7 amended: the hard-disconnect escalation does not touch the
process-wide connectivity flag at all (nor does the soft-error callback);
`estado["conectado"]` is written only by the health-check worker, which
sets it to the health-check outcome.  After an escalation the flag keeps
whatever value it had, so connectivity-gated operations are not blocked
by a hard disconnect. -/
theorem c7_flag_untouched_by_hard_disconnect :
    (∀ (m : String) (s : AppSt), (on_hard_disconnect_app m s).estado = s.estado) ∧
    (∀ (m : String) (s : AppSt), (on_soft_error_app m s).estado = s.estado) ∧
    (∀ (ip : String) (s : AppSt), (verificar_do ip true s).estado.conectado = true) ∧
    (∀ (ip : String) (s : AppSt), (verificar_do ip false s).estado.conectado = false) :=
  ⟨fun _ _ => rfl, fun _ _ => rfl, fun _ _ => rfl, fun _ _ => rfl⟩

/-! ### Claim C10 — the PWM set path -/

/-- C10: whenever `_send_pwm` does issue a GET, the duty it carries is
the input clamped to `[0, 255]`; with the connectivity flag false the
call returns before doing anything; and when the clamped value is within
6 of the last acknowledged value with under 250 ms elapsed, the update is
silently dropped — no GET, no state change.  (The path calls
`requests.get` directly; the `CommandSender` machine does not appear in
its definition, so the Dispatcher queue is bypassed.) -/
theorem c10_send_pwm_gating :
    (∀ (conectado : Bool) (ip : String) (ok : Bool) (now ts val pwm : Int),
        (send_pwm conectado ip ok now ts val pwm).sent = none ∨
        (send_pwm conectado ip ok now ts val pwm).sent = some (max 0 (min 255 pwm))) ∧
    (∀ pwm : Int, 0 ≤ max 0 (min 255 pwm) ∧ max 0 (min 255 pwm) ≤ 255) ∧
    (∀ (ip : String) (ok : Bool) (now ts val pwm : Int),
        send_pwm false ip ok now ts val pwm = ⟨none, ts, val⟩) ∧
    (∀ (conectado : Bool) (ip : String) (ok : Bool) (now ts val pwm : Int),
        |max 0 (min 255 pwm) - val| < 6 → now - ts < 250 →
        send_pwm conectado ip ok now ts val pwm = ⟨none, ts, val⟩) := by
  refine ⟨?_, ?_, ?_, ?_⟩
  · intro conectado ip ok now ts val pwm
    unfold send_pwm
    by_cases hd : |max 0 (min 255 pwm) - val| < 6 ∧ now - ts < 250
    · repeat' split
      all_goals simp [if_pos hd]
    · repeat' split
      all_goals simp [if_neg hd]
  · intro pwm
    exact ⟨le_max_left 0 _, max_le (by norm_num) (min_le_left _ _)⟩
  · intro ip ok now ts val pwm
    unfold send_pwm
    simp
  · intro conectado ip ok now ts val pwm h1 h2
    unfold send_pwm
    cases conectado with
    | false => simp
    | true =>
      rw [if_neg (by simp)]
      rw [if_pos ⟨h1, h2⟩]

/-- C10 witness: a joystick duty of 300 clamps to 255 and is sent when
far from the last acknowledged value; the same call with the flag down,
or a nearby recent value (251 vs 255 acknowledged 100 ms ago), does
nothing. -/
theorem c10_send_pwm_gating_witness :
    ((send_pwm true picoIp true 1000 0 (-1) 300).sent = none ∨
      (send_pwm true picoIp true 1000 0 (-1) 300).sent = some (max 0 (min 255 (300 : Int)))) ∧
    send_pwm false picoIp true 1000 0 (-1) 300 = ⟨none, 0, -1⟩ ∧
    send_pwm true picoIp true 1000 900 255 251 = ⟨none, 900, 255⟩ :=
  ⟨c10_send_pwm_gating.1 true picoIp true 1000 0 (-1) 300,
   c10_send_pwm_gating.2.2.1 picoIp true 1000 0 (-1) 300,
   c10_send_pwm_gating.2.2.2 true picoIp true 1000 900 255 251 (by decide) (by decide)⟩

/-! ### Claim C2 — rate limiting and coalescing -/

/-- The pending slot after a burst of `queue` calls starting from `p`:
each call overwrites the slot in place (`self.pending = cmd`), never
appends. -/
def burstPending : List (Nat × String) → Option String → Option String
  | [], p => p
  | (_, cmd) :: rest, _ => burstPending rest (some cmd)

/-- A burst of `queue` calls: before each call the clock advances by the
given delay; each call is the pending overwrite followed by its
synchronous pump (`queueActs`). -/
def queueBurst : List (Nat × String) → List Act
  | [] => []
  | (d, cmd) :: rest => Act.tick d :: Act.setPending cmd :: Act.pump :: queueBurst rest

/-- Total clock advance of a burst. -/
def burstDelay (qs : List (Nat × String)) : Nat := (qs.map Prod.fst).sum

theorem burstDelay_cons (d : Nat) (cmd : String) (rest : List (Nat × String)) :
    burstDelay ((d, cmd) :: rest) = d + burstDelay rest := by
  simp [burstDelay]

/-- Every `queue` call of a burst that lands while the rate-limit window
is still open (all delays sum below the remaining window) only overwrites
the pending slot and re-arms the pump timer: no worker is spawned, no GET
is issued, and nothing else changes. -/
theorem run_queueBurst (qs : List (Nat × String)) (c : Config)
    (ht : c.threads = []) (hinf : c.st.inflight = false) (hsd : c.st.shutdown = false)
    (hwin : c.now + (burstDelay qs : Int) < c.st.last_ts + RATE_LIMIT_MS) :
    ∃ evs : List Ev,
      run c (queueBurst qs) =
        { st := { pending := burstPending qs c.st.pending, inflight := false,
                  last_ts := c.st.last_ts, fail_count := c.st.fail_count, shutdown := false },
          now := c.now + (burstDelay qs : Int), threads := [], events := c.events ++ evs,
          calls := c.calls, maxCalls := c.maxCalls } ∧
      evs.filter isSendStart = [] := by
  induction qs generalizing c with
  | nil =>
    refine ⟨[], ?_, rfl⟩
    cases c with
    | mk st now threads events calls maxCalls =>
      cases st with
      | mk p inf lts fc sd =>
        simp only at ht hinf hsd
        subst ht hinf hsd
        simp [burstPending, burstDelay, queueBurst, run]
  | cons q rest ih =>
    obtain ⟨d, cmd⟩ := q
    set c2 : Config :=
      { c with now := c.now + (d : Int), st := { c.st with pending := some cmd } } with hc2
    have hpump : pumpStep c2 =
        { c2 with events := c2.events ++
            [Ev.schedPump (max 0 (RATE_LIMIT_MS - (c2.now - c2.st.last_ts)))] } := by
      refine pumpStep_wait c2 cmd hinf rfl hsd ?_
      have hd : burstDelay ((d, cmd) :: rest) = d + burstDelay rest := burstDelay_cons d cmd rest
      rw [hd] at hwin
      have hR : RATE_LIMIT_MS = 160 := rfl
      show (0 : Int) < max 0 (RATE_LIMIT_MS - (c.now + (d : Int) - c.st.last_ts))
      push_cast at hwin
      omega
    have hrun : run c (queueBurst ((d, cmd) :: rest)) =
        run (pumpStep c2) (queueBurst rest) := by
      rw [queueBurst, run_cons, run_cons, run_cons]
      rfl
    obtain ⟨evs', heq, hfil⟩ := ih
      { c2 with events := c2.events ++
          [Ev.schedPump (max 0 (RATE_LIMIT_MS - (c2.now - c2.st.last_ts)))] }
      ht hinf hsd
      (by
        have hd : burstDelay ((d, cmd) :: rest) = d + burstDelay rest := burstDelay_cons d cmd rest
        rw [hd] at hwin
        show c.now + (d : Int) + (burstDelay rest : Int) < c.st.last_ts + RATE_LIMIT_MS
        push_cast at hwin
        omega)
    refine ⟨Ev.schedPump (max 0 (RATE_LIMIT_MS - (c2.now - c2.st.last_ts))) :: evs', ?_, ?_⟩
    · rw [hrun, hpump, heq]
      have hd : burstDelay ((d, cmd) :: rest) = d + burstDelay rest := burstDelay_cons d cmd rest
      rw [hd]
      simp only [hc2]
      congr 1
      · push_cast
        ring
      · rw [List.append_assoc]
        rfl
    · rw [List.filter_cons]
      simp only [isSendStart]
      rw [if_neg (by simp)]
      exact hfil

/-- From an idle sender with a pending command and the rate-limit window
expired, one pump plus the four steps of its worker perform exactly one
successful GET carrying the pending command. -/
theorem run_quiet_send (c : Config) (cmd ip : String)
    (ht : c.threads = []) (hinf : c.st.inflight = false) (hsd : c.st.shutdown = false)
    (hpend : c.st.pending = some cmd)
    (hlate : max 0 (RATE_LIMIT_MS - (c.now - c.st.last_ts)) = 0)
    (hip : ¬pyStrip ip.data = []) :
    run c [Act.pump, Act.stepT 0 ip true, Act.stepT 0 ip true, Act.stepT 0 ip true,
           Act.stepT 0 ip true] =
      { st := { pending := none, inflight := false, last_ts := c.now, fail_count := 0,
                shutdown := false },
        now := c.now, threads := [],
        events := c.events ++ [Ev.sendStart cmd, Ev.sendDone true, Ev.schedPump 0],
        calls := c.calls, maxCalls := max c.maxCalls (c.calls + 1) } := by
  rw [run_cons, run_cons, run_cons, run_cons, run_cons, run_nil]
  simp only [applyAct]
  rw [pumpStep_spawn c cmd hinf hpend hsd hlate, ht]
  set c1 : Config := { c with threads := ([] : List Phase) ++ [Phase.entry] } with hc1
  have hg1 : c1.threads.get? 0 = some Phase.entry := rfl
  rw [stepPhase_entry_take c1 0 ip true cmd hg1 hpend hsd]
  set c2 : Config :=
    { c1 with st := { c1.st with pending := none, inflight := true },
              threads := c1.threads.set 0 (Phase.resolveIp cmd) } with hc2
  have hg2 : c2.threads.get? 0 = some (Phase.resolveIp cmd) := rfl
  rw [stepPhase_resolve_send c2 0 ip true cmd hg2 hip]
  set c3 : Config :=
    { c2 with events := c2.events ++ [Ev.sendStart cmd], calls := c2.calls + 1,
              maxCalls := max c2.maxCalls (c2.calls + 1),
              threads := c2.threads.set 0 (Phase.awaitNet cmd) } with hc3
  have hg3 : c3.threads.get? 0 = some (Phase.awaitNet cmd) := rfl
  rw [stepPhase_await_ok c3 0 ip cmd hg3]
  set c4 : Config :=
    { c3 with st := { c3.st with fail_count := 0, last_ts := c3.now },
              calls := c3.calls - 1, events := c3.events ++ [Ev.sendDone true],
              threads := c3.threads.set 0 Phase.fin } with hc4
  have hg4 : c4.threads.get? 0 = some Phase.fin := rfl
  rw [stepPhase_fin c4 0 ip true hg4]
  simp only [hc4, hc3, hc2, hc1]
  congr 1
  · rw [hsd]
  · simp [List.append_assoc]

/-- C2: for a burst of `queue` calls all landing within one rate-limit
window (measured from `lastSentAt`), no Transport GET is issued during
the burst — each call only overwrites the single pending slot
(last-writer-wins) and re-arms the pump timer — and when the window has
expired the pump performs exactly one GET, carrying the last command
submitted before the worker took the pending slot. -/
theorem c2_window_single_send (c : Config) (qs : List (Nat × String)) (dW : Nat) (ip : String)
    (lastCmd : String)
    (ht : c.threads = []) (hinf : c.st.inflight = false) (hsd : c.st.shutdown = false)
    (hwin : c.now + (burstDelay qs : Int) < c.st.last_ts + RATE_LIMIT_MS)
    (hlast : burstPending qs c.st.pending = some lastCmd)
    (hend : c.st.last_ts + RATE_LIMIT_MS ≤ c.now + (burstDelay qs : Int) + (dW : Int))
    (hip : ¬pyStrip ip.data = []) :
    ((run c (queueBurst qs ++
        [Act.tick dW, Act.pump, Act.stepT 0 ip true, Act.stepT 0 ip true, Act.stepT 0 ip true,
         Act.stepT 0 ip true])).events.drop c.events.length).filter isSendStart =
      [Ev.sendStart lastCmd] := by
  obtain ⟨evs, heq, hfil⟩ := run_queueBurst qs c ht hinf hsd hwin
  rw [run_append, heq, run_cons]
  simp only [applyAct]
  have hlate : max 0 (RATE_LIMIT_MS -
      (c.now + (burstDelay qs : Int) + (dW : Int) - c.st.last_ts)) = 0 := by
    have hR : RATE_LIMIT_MS = 160 := rfl
    omega
  have hsend := run_quiet_send
    { st := { pending := burstPending qs c.st.pending, inflight := false,
              last_ts := c.st.last_ts, fail_count := c.st.fail_count, shutdown := false },
      now := c.now + (burstDelay qs : Int) + (dW : Int), threads := [],
      events := c.events ++ evs, calls := c.calls, maxCalls := c.maxCalls }
    lastCmd ip rfl rfl rfl hlast hlate hip
  rw [hsend]
  simp only [List.append_assoc, List.drop_left, List.filter_append, hfil, List.nil_append]
  rfl

/-- C2 witness: the spec's scenario — `queue("move-forward")` at t = 0 ms
and `queue("stop")` at t = 10 ms on a fresh sender (window 160 ms), pump
at t = 160 ms: exactly one GET is issued and it carries `"stop"`. -/
theorem c2_window_single_send_witness :
    ((run initConfig (queueBurst [(0, "move-forward"), (10, "stop")] ++
        [Act.tick 150, Act.pump, Act.stepT 0 picoIp true, Act.stepT 0 picoIp true,
         Act.stepT 0 picoIp true, Act.stepT 0 picoIp true])).events.drop
      initConfig.events.length).filter isSendStart = [Ev.sendStart "stop"] :=
  c2_window_single_send initConfig [(0, "move-forward"), (10, "stop")] 150 picoIp "stop"
    rfl rfl rfl (by decide) rfl (by decide) (by decide)
